import Mathlib

/-!
Formal model of the payment bot in `bot.py`: the OkayPay gateway client
(request signing with four compatibility strategies, authentication-failure
detection, response normalization) and the SQLite-backed order/balance store
(`users` and `orders` tables with their atomic transactions), together with
proofs of the reconciliation properties.

Modelling conventions:
* SQLite tables become association lists (`List (key × row)`); `SELECT ...
  fetchone` is first-match lookup, `UPDATE ... WHERE key=?` maps over all
  matching entries, `INSERT` appends.  Each Python function that runs one
  transaction becomes one pure Lean function from the database state to the
  new database state plus its return value; `BEGIN IMMEDIATE` serializes the
  transactions, so concurrent executions are modelled as arbitrary sequential
  interleavings of these atomic state transformers.
* `Decimal` amounts and balances (stored as exact decimal strings) become
  `Rat`: the decimal string round-trip in the source is exact.
* JSON response objects become the inductive `JVal`; Python truthiness,
  `str()` and `==` against integers are modelled explicitly (`pyTruthy`,
  `pyToStr`, `pyEqNum`).  `str()` of nested containers is abbreviated to a
  bracketed placeholder; every comparison in the source compares against a
  fixed bracket-free vocabulary, so only bracketedness of the rendering is
  relied upon.
* Network calls (`httpx` posts, the gateway behaviour) are oracles passed as
  function arguments: `none` models a raised transport/parse exception, and
  `some resp` a decoded JSON response.
-/

/-- First-match association-list lookup: `SELECT ... WHERE key=? ... fetchone`. -/
def findA {α β : Type} [DecidableEq α] : List (α × β) → α → Option β
  | [], _ => none
  | p :: rest, k => if p.1 = k then some p.2 else findA rest k

/-- Update every entry with the given key: `UPDATE ... SET ... WHERE key=?`. -/
def updateA {α β : Type} [DecidableEq α] (l : List (α × β)) (k : α) (f : β → β) :
    List (α × β) :=
  l.map (fun p => if p.1 = k then (p.1, f p.2) else p)

/-- Python dict assignment `d[k] = v`: overwrite an existing key, else append. -/
def setKey {α β : Type} [DecidableEq α] (l : List (α × β)) (k : α) (v : β) :
    List (α × β) :=
  if (findA l k).isSome then updateA l k (fun _ => v) else l ++ [(k, v)]

/-- JSON values as decoded by `r.json()` (numbers restricted to integers; the
gateway codes compared against in the source are the integers 10000, 0, 200). -/
inductive JVal where
  | null : JVal
  | bool : Bool → JVal
  | num : Int → JVal
  | str : String → JVal
  | obj : List (String × JVal) → JVal
  | arr : List JVal → JVal

/-- Python truthiness `bool(v)` for the values of `JVal`. -/
def pyTruthy : JVal → Bool
  | .null => false
  | .bool b => b
  | .num n => !(n = 0)
  | .str s => !(s = "")
  | .obj fs => !fs.isEmpty
  | .arr xs => !xs.isEmpty

/-- Python `v == m` for an integer literal `m` (`bool` is a numeric subtype:
`False == 0` and `True == 1`; strings and containers never equal a number). -/
def pyEqNum : JVal → Int → Bool
  | .num n, m => n = m
  | .bool b, m => (if b then (1 : Int) else 0) = m
  | _, _ => false

/-- Python `str(v)`.  Containers are abbreviated to a bracketed placeholder:
the source only ever compares `str(v)` against a fixed bracket-free vocabulary,
so only the brackets of the real rendering matter. -/
def pyToStr : JVal → String
  | .null => "None"
  | .bool true => "True"
  | .bool false => "False"
  | .num n => toString n
  | .str s => s
  | .obj [] => "\x7b\x7d"
  | .obj _ => "\x7b...\x7d"
  | .arr [] => "[]"
  | .arr _ => "[...]"

/-- ASCII lower-casing of one character. -/
def lowerChar (c : Char) : Char :=
  if 65 ≤ c.toNat && c.toNat ≤ 90 then Char.ofNat (c.toNat + 32) else c

/-- ASCII upper-casing of one character. -/
def upperChar (c : Char) : Char :=
  if 97 ≤ c.toNat && c.toNat ≤ 122 then Char.ofNat (c.toNat - 32) else c

/-- Python `str.lower()` (ASCII case folding suffices for the compared values). -/
def lowerStr (s : String) : String := String.mk (s.data.map lowerChar)

/-- Python `str.upper()`. -/
def upperStr (s : String) : String := String.mk (s.data.map upperChar)

/-- Whether `pat` is a prefix of `l`. -/
def isPrefixList : List Char → List Char → Bool
  | [], _ => true
  | _ :: _, [] => false
  | p :: ps, c :: cs => p = c && isPrefixList ps cs

/-- Whether `pat` occurs as a contiguous sublist of `l`. -/
def containsSubAux (pat : List Char) : List Char → Bool
  | [] => pat.isEmpty
  | c :: rest => isPrefixList pat (c :: rest) || containsSubAux pat rest

/-- Python `pat in s` substring test. -/
def containsSub (s pat : String) : Bool := containsSubAux pat.data s.data

/-- Dictionary lookup with default: `d.get(k, default)`. -/
def getD (fs : List (String × JVal)) (k : String) (d : JVal) : JVal :=
  match findA fs k with
  | some v => v
  | none => d

/-! ### UTF-8 and URL encoding (`urllib.parse`) -/

/-- UTF-8 encoding of one character, as byte values. -/
def utf8EncodeChar (c : Char) : List Nat :=
  let n := c.toNat
  if n < 128 then [n]
  else if n < 2048 then [192 + n / 64, 128 + n % 64]
  else if n < 65536 then [224 + n / 4096, 128 + (n / 64) % 64, 128 + n % 64]
  else [240 + n / 262144, 128 + (n / 4096) % 64, 128 + (n / 64) % 64, 128 + n % 64]

/-- UTF-8 encoding of a string, as byte values. -/
def utf8Encode (s : String) : List Nat := s.data.foldr (fun c acc => utf8EncodeChar c ++ acc) []

/-- Bytes left unescaped by `urllib.parse.quote` with `safe=''`:
ASCII letters, digits, and `_ . - ~`. -/
def isUnreservedByte (b : Nat) : Bool :=
  (48 ≤ b && b ≤ 57) || (65 ≤ b && b ≤ 90) || (97 ≤ b && b ≤ 122) ||
    b = 45 || b = 46 || b = 95 || b = 126

/-- Hex digit (uppercase), for percent escapes. -/
def hexDigitUpper (n : Nat) : Char :=
  if n < 10 then Char.ofNat (48 + n) else Char.ofNat (55 + n)

/-- Hex digit (lowercase), for `hexdigest()`. -/
def hexDigitLower (n : Nat) : Char :=
  if n < 10 then Char.ofNat (48 + n) else Char.ofNat (87 + n)

/-- Percent-escape one byte, or keep it literal if unreserved. -/
def quoteByte (b : Nat) : String :=
  if isUnreservedByte b then String.singleton (Char.ofNat b)
  else "%" ++ String.singleton (hexDigitUpper (b / 16 % 16)) ++
    String.singleton (hexDigitUpper (b % 16))

/-- `urllib.parse.quote_plus(s, safe='')`: spaces become `+`, unreserved bytes
stay, all other UTF-8 bytes are percent-escaped. -/
def quotePlus (s : String) : String :=
  String.join ((utf8Encode s).map (fun b => if b = 32 then "+" else quoteByte b))

/-- Numeric value of a hex digit character, if any (both cases accepted). -/
def hexVal (c : Char) : Option Nat :=
  if 48 ≤ c.toNat && c.toNat ≤ 57 then some (c.toNat - 48)
  else if 65 ≤ c.toNat && c.toNat ≤ 70 then some (c.toNat - 55)
  else if 97 ≤ c.toNat && c.toNat ≤ 102 then some (c.toNat - 87)
  else none

/-- Lex a percent-encoded string into literal characters (`Sum.inl`) and
decoded bytes from `%XX` escapes (`Sum.inr`); a `%` not followed by two hex
digits stays literal, as in `urllib.parse.unquote`. -/
def percentTokens : List Char → List (Sum Char Nat)
  | [] => []
  | '%' :: c1 :: c2 :: rest =>
    match hexVal c1, hexVal c2 with
    | some h1, some h2 => Sum.inr (16 * h1 + h2) :: percentTokens rest
    | _, _ => Sum.inl '%' :: percentTokens (c1 :: c2 :: rest)
  | c :: rest => Sum.inl c :: percentTokens rest

/-- The Unicode replacement character, used for undecodable byte sequences. -/
def replChar : Char := Char.ofNat 65533

/-- Character from a code point, with the replacement character for invalid
code points (surrogates or out of range). -/
def charOfCodePoint (n : Nat) : Char :=
  if n < 55296 then Char.ofNat n
  else if 57344 ≤ n && n < 1114112 then Char.ofNat n
  else replChar

/-- Whether a byte is a UTF-8 continuation byte. -/
def isContByte (b : Nat) : Bool := 128 ≤ b && b < 192

/-- UTF-8 decoding of a byte list, one replacement character per undecodable
leading byte (Python `bytes.decode('utf-8', errors='replace')`). -/
def utf8DecodeList : (l : List Nat) → List Char
  | [] => []
  | b :: rest =>
    if b < 128 then Char.ofNat b :: utf8DecodeList rest
    else if 192 ≤ b && b < 224 then
      match rest with
      | b2 :: rest2 =>
        if isContByte b2 then
          charOfCodePoint ((b - 192) * 64 + (b2 - 128)) :: utf8DecodeList rest2
        else replChar :: utf8DecodeList (b2 :: rest2)
      | [] => [replChar]
    else if 224 ≤ b && b < 240 then
      match rest with
      | b2 :: b3 :: rest3 =>
        if isContByte b2 && isContByte b3 then
          charOfCodePoint ((b - 224) * 4096 + (b2 - 128) * 64 + (b3 - 128)) ::
            utf8DecodeList rest3
        else replChar :: utf8DecodeList (b2 :: b3 :: rest3)
      | _ => [replChar]
    else if 240 ≤ b && b < 248 then
      match rest with
      | b2 :: b3 :: b4 :: rest4 =>
        if isContByte b2 && isContByte b3 && isContByte b4 then
          charOfCodePoint
              ((b - 240) * 262144 + (b2 - 128) * 4096 + (b3 - 128) * 64 + (b4 - 128)) ::
            utf8DecodeList rest4
        else replChar :: utf8DecodeList (b2 :: b3 :: b4 :: rest4)
      | _ => [replChar]
    else replChar :: utf8DecodeList rest
termination_by l => l.length
decreasing_by all_goals (simp [List.length_cons]; try omega)

/-- Decode a byte run to a string. -/
def utf8DecodeStr (bs : List Nat) : String :=
  String.mk (utf8DecodeList bs)

/-- Fold the token stream of `percentTokens`, decoding each maximal run of
percent-escaped bytes as UTF-8 (as Python `unquote` does). -/
def unquoteAux : List (Sum Char Nat) → List Nat → String → String
  | [], pending, acc => acc ++ utf8DecodeStr pending
  | Sum.inl c :: rest, pending, acc =>
    unquoteAux rest [] (acc ++ utf8DecodeStr pending ++ String.singleton c)
  | Sum.inr b :: rest, pending, acc => unquoteAux rest (pending ++ [b]) acc

/-- `urllib.parse.unquote`: decode `%XX` escapes, leave `+` alone. -/
def pyUnquote (s : String) : String := unquoteAux (percentTokens s.data) [] ""

/-- `urllib.parse.unquote_plus`: `+` becomes a space, then `%XX` escapes decode. -/
def pyUnquotePlus (s : String) : String :=
  pyUnquote (String.map (fun c => if c = '+' then ' ' else c) s)

/-- Rendering used by `urlencode(..., doseq=True)` for a sequence element or a
scalar value: strings pass through, other scalars via `str()`. -/
def urlencodeElemStr (v : JVal) : String := pyToStr v

/-- `urllib.parse.urlencode(items, doseq=True)`: each pair is percent-encoded
with `quote_plus`; string values give one `k=v` pair, sequences one pair per
element, dicts one pair per key, and other scalars are rendered with `str()`. -/
def urlencodeDoseq (items : List (String × JVal)) : String :=
  String.intercalate "&"
    (items.foldr
      (fun kv acc =>
        (match kv.2 with
          | .str s => [quotePlus kv.1 ++ "=" ++ quotePlus s]
          | .arr xs => xs.map (fun e => quotePlus kv.1 ++ "=" ++ quotePlus (urlencodeElemStr e))
          | .obj fs => fs.map (fun f => quotePlus kv.1 ++ "=" ++ quotePlus f.1)
          | v => [quotePlus kv.1 ++ "=" ++ quotePlus (pyToStr v)]) ++ acc)
      [])

/-! ### MD5 (`hashlib.md5`) -/

/-- Modulus for 32-bit words. -/
def m32 : Nat := 4294967296

/-- 32-bit modular addition. -/
def add32 (a b : Nat) : Nat := (a + b) % m32

/-- 32-bit complement. -/
def not32 (x : Nat) : Nat := Nat.xor x 4294967295

/-- 32-bit left rotation. -/
def rotl32 (x s : Nat) : Nat := ((x <<< s) % m32) ||| (x >>> (32 - s))

/-- The 64 MD5 sine-derived constants. -/
def md5K : List Nat :=
  [0xd76aa478, 0xe8c7b756, 0x242070db, 0xc1bdceee,
   0xf57c0faf, 0x4787c62a, 0xa8304613, 0xfd469501,
   0x698098d8, 0x8b44f7af, 0xffff5bb1, 0x895cd7be,
   0x6b901122, 0xfd987193, 0xa679438e, 0x49b40821,
   0xf61e2562, 0xc040b340, 0x265e5a51, 0xe9b6c7aa,
   0xd62f105d, 0x02441453, 0xd8a1e681, 0xe7d3fbc8,
   0x21e1cde6, 0xc33707d6, 0xf4d50d87, 0x455a14ed,
   0xa9e3e905, 0xfcefa3f8, 0x676f02d9, 0x8d2a4c8a,
   0xfffa3942, 0x8771f681, 0x6d9d6122, 0xfde5380c,
   0xa4beea44, 0x4bdecfa9, 0xf6bb4b60, 0xbebfbc70,
   0x289b7ec6, 0xeaa127fa, 0xd4ef3085, 0x04881d05,
   0xd9d4d039, 0xe6db99e5, 0x1fa27cf8, 0xc4ac5665,
   0xf4292244, 0x432aff97, 0xab9423a7, 0xfc93a039,
   0x655b59c3, 0x8f0ccc92, 0xffeff47d, 0x85845dd1,
   0x6fa87e4f, 0xfe2ce6e0, 0xa3014314, 0x4e0811a1,
   0xf7537e82, 0xbd3af235, 0x2ad7d2bb, 0xeb86d391]

/-- The 64 MD5 per-round rotation amounts. -/
def md5S : List Nat :=
  [7, 12, 17, 22, 7, 12, 17, 22, 7, 12, 17, 22, 7, 12, 17, 22,
   5, 9, 14, 20, 5, 9, 14, 20, 5, 9, 14, 20, 5, 9, 14, 20,
   4, 11, 16, 23, 4, 11, 16, 23, 4, 11, 16, 23, 4, 11, 16, 23,
   6, 10, 15, 21, 6, 10, 15, 21, 6, 10, 15, 21, 6, 10, 15, 21]

/-- One MD5 round on the running state. -/
def md5Round (w : List Nat) (st : Nat × Nat × Nat × Nat) (i : Nat) :
    Nat × Nat × Nat × Nat :=
  let a := st.1
  let b := st.2.1
  let c := st.2.2.1
  let d := st.2.2.2
  let fg : Nat × Nat :=
    if i < 16 then ((b &&& c) ||| (not32 b &&& d), i)
    else if i < 32 then ((d &&& b) ||| (not32 d &&& c), (5 * i + 1) % 16)
    else if i < 48 then (Nat.xor (Nat.xor b c) d, (3 * i + 5) % 16)
    else (Nat.xor c (b ||| not32 d), (7 * i) % 16)
  let tmp := add32 (add32 (add32 a fg.1) (md5K.getD i 0)) (w.getD fg.2 0)
  (d, add32 b (rotl32 tmp (md5S.getD i 0)), b, c)

/-- Process one 16-word block. -/
def md5Block (st : Nat × Nat × Nat × Nat) (w : List Nat) : Nat × Nat × Nat × Nat :=
  let r := (List.range 64).foldl (md5Round w) st
  (add32 st.1 r.1, add32 st.2.1 r.2.1, add32 st.2.2.1 r.2.2.1, add32 st.2.2.2 r.2.2.2)

/-- Little-endian byte rendering of a number, `n` bytes. -/
def leBytes (n : Nat) (x : Nat) : List Nat :=
  (List.range n).map (fun i => (x >>> (8 * i)) % 256)

/-- Little-endian 32-bit words of a 64-byte block. -/
def toWords (block : List Nat) : List Nat :=
  (List.range 16).map (fun i =>
    block.getD (4 * i) 0 + 256 * block.getD (4 * i + 1) 0 +
      65536 * block.getD (4 * i + 2) 0 + 16777216 * block.getD (4 * i + 3) 0)

/-- Split a byte list into 64-byte chunks. -/
def chunk64 (l : List Nat) : List (List Nat) :=
  if h : l = [] then [] else l.take 64 :: chunk64 (l.drop 64)
termination_by l.length
decreasing_by
  have h1 : 0 < l.length := List.length_pos.mpr h
  simp [List.length_drop]
  omega

/-- The MD5 initial state. -/
def md5Init : Nat × Nat × Nat × Nat := (0x67452301, 0xefcdab89, 0x98badcfe, 0x10325476)

/-- MD5 digest of a byte list, as 16 bytes. -/
def md5Bytes (msg : List Nat) : List Nat :=
  let padLen := (120 - ((msg.length + 1) % 64)) % 64
  let padded := msg ++ 128 :: (List.replicate padLen 0 ++
    leBytes 8 ((8 * msg.length) % 18446744073709551616))
  let st := (chunk64 padded).foldl (fun st blk => md5Block st (toWords blk)) md5Init
  leBytes 4 st.1 ++ leBytes 4 st.2.1 ++ leBytes 4 st.2.2.1 ++ leBytes 4 st.2.2.2

/-- Lowercase hex rendering of a byte. -/
def byteHexLower (b : Nat) : String :=
  String.singleton (hexDigitLower (b / 16 % 16)) ++ String.singleton (hexDigitLower (b % 16))

/-- `hashlib.md5(bytes).hexdigest()`: lowercase hex of the digest. -/
def md5HexLower (msg : List Nat) : String :=
  String.join ((md5Bytes msg).map byteHexLower)

/-! ### OkayPay client (`OkayPayClient` in `bot.py`) -/

/-- Source `_php_truthy`: the PHP `array_filter` truthiness test, evaluated per
`JVal` constructor.  The Python checks are, in order: `value is None`,
`value is False`, `value == 0 or value == 0.0`, string equal to `""` or `"0"`,
empty collection; anything else is truthy.  Per constructor this collapses to
the cases below (`True == 0` is false, `"0" == 0` is false in Python). -/
def php_truthy : JVal → Bool
  | .null => false
  | .bool b => b
  | .num n => !(n = 0)
  | .str s => !(s = "" || s = "0")
  | .obj fs => !fs.isEmpty
  | .arr xs => !xs.isEmpty

/-- Source `_sign_data` keep-zero filter `v is not None and v != ""`:
only `None` and the empty string are dropped (Python `0 != ""` is true). -/
def keep_zero_keep : JVal → Bool
  | .null => false
  | .str s => !(s = "")
  | _ => true

/-- The filtered payload of `_sign_data`: merchant id injected under key
`"id"`, then the strategy's filter applied. -/
def sign_filtered (merchantId : String) (data : List (String × JVal))
    (keepZero : Bool) : List (String × JVal) :=
  let payload := setKey data "id" (JVal.str merchantId)
  payload.filter (fun kv => if keepZero then keep_zero_keep kv.2 else php_truthy kv.2)

/-- Source `_sign_data`, signature component: filter, sort by key, URL-encode,
PHP-style urldecode (with or without `+` as space), append the secret token,
MD5, uppercase hex. -/
def sign_data_sign (merchantId token : String) (data : List (String × JVal))
    (keepZero useUrldecodePlus : Bool) : String :=
  let filtered := sign_filtered merchantId data keepZero
  let sortedItems := filtered.mergeSort (fun a b => a.1 ≤ b.1)
  let query := urlencodeDoseq sortedItems
  let decoded := if useUrldecodePlus then pyUnquotePlus query else pyUnquote query
  let signSrc := decoded ++ "&token=" ++ token
  upperStr (md5HexLower (utf8Encode signSrc))

/-- Source `_sign_data`, full return value: the filtered payload with the
signature added under key `"sign"`. -/
def sign_data (merchantId token : String) (data : List (String × JVal))
    (keepZero useUrldecodePlus : Bool) : List (String × JVal) :=
  setKey (sign_filtered merchantId data keepZero) "sign"
    (JVal.str (sign_data_sign merchantId token data keepZero useUrldecodePlus))

/-- Source `_is_auth_failed`: an authentication-failure response carries the
marker `身份认证失败` in `msg`/`message`, or a `warning`/`error` status
together with `认证` in the message. -/
def is_auth_failed : JVal → Bool
  | .obj fs =>
    let status := lowerStr (pyToStr (getD fs "status" (JVal.str "")))
    let msg := pyToStr (getD fs "msg" (JVal.str "")) ++ pyToStr (getD fs "message" (JVal.str ""))
    containsSub msg "身份认证失败" ||
      ((status = "warning" || status = "error") && containsSub msg "认证")
  | _ => false

/-- The fixed ordered strategy list of `_post`: pairs
`(keep_zero, use_urldecode_plus)` in source order. -/
def strategies : List (Bool × Bool) :=
  [(false, true), (true, true), (false, false), (true, false)]

/-- Result of `_post`: a decoded response, or the raised `RuntimeError` when
no strategy produced any response. -/
inductive PostResult where
  | resp : JVal → PostResult
  | fail : PostResult

/-- The strategy loop of `_post` over an oracle `f` giving each strategy's
network outcome (`none` = exception, `some r` = decoded response), threading
the last received response: a non-auth-failure response returns immediately,
an auth failure is recorded and the next strategy is tried, an exception is
skipped; after exhaustion the last response is returned if any, else the
`RuntimeError` is raised. -/
def post_loop (f : Bool × Bool → Option JVal) :
    List (Bool × Bool) → Option JVal → PostResult
  | [], last =>
    match last with
    | some r => PostResult.resp r
    | none => PostResult.fail
  | st :: rest, last =>
    match f st with
    | none => post_loop f rest last
    | some r => if is_auth_failed r then post_loop f rest (some r) else PostResult.resp r

/-- Source `_post`: run the strategy loop over the fixed strategy list. -/
def post (f : Bool × Bool → Option JVal) : PostResult :=
  post_loop f strategies none

/-! ### Response normalization (`_extract_pay_result`, `_extract_paid_status`) -/

/-- The nested `data` object: `resp.get("data", {}) if isinstance(resp.get("data"), dict) else {}`. -/
def dataObj (fs : List (String × JVal)) : List (String × JVal) :=
  match findA fs "data" with
  | some (JVal.obj ds) => ds
  | _ => []

/-- Recognition of a success `code`: `code in (10000, 0, 200)` on `resp.get("code")`. -/
def okCode (fs : List (String × JVal)) : Bool :=
  match findA fs "code" with
  | some c => pyEqNum c 10000 || pyEqNum c 0 || pyEqNum c 200
  | none => false

/-- The lowercased top-level status string: `str(resp.get("status", "")).lower()`. -/
def statusLower (fs : List (String × JVal)) : String :=
  lowerStr (pyToStr (getD fs "status" (JVal.str "")))

/-- Python `a or b`: the first truthy operand, else the second. -/
def pyOr (a b : JVal) : JVal := if pyTruthy a then a else b

/-- Source `_extract_pay_result`: normalize a creation response into
`(success, order_id, pay_url)`.  Success requires a truthy pay URL and a
recognized code or status; the id and URL are taken from the first truthy
field among the alternate spellings, nested `data` first. -/
def extract_pay_result (resp : JVal) : Bool × String × String :=
  match resp with
  | .obj fs =>
    let data := dataObj fs
    let orderId := pyOr (getD data "order_id" JVal.null)
      (pyOr (getD data "orderId" JVal.null)
        (pyOr (getD fs "order_id" JVal.null)
          (pyOr (getD fs "orderId" JVal.null) (JVal.str ""))))
    let payUrl := pyOr (getD data "pay_url" JVal.null)
      (pyOr (getD data "payUrl" JVal.null)
        (pyOr (getD data "url" JVal.null)
          (pyOr (getD data "link" JVal.null)
            (pyOr (getD fs "pay_url" JVal.null)
              (pyOr (getD fs "payUrl" JVal.null) (JVal.str ""))))))
    let okStatus := statusLower fs = "success" || statusLower fs = "ok" ||
      statusLower fs = "1" || statusLower fs = "true"
    let success := pyTruthy payUrl && (okCode fs || okStatus)
    (success, pyToStr orderId, pyToStr payUrl)
  | _ => (false, "", "")

/-- The nested payment-status value of `_extract_paid_status`:
`data.get("status", data.get("pay_status", 0))`. -/
def nestedPayStatus (fs : List (String × JVal)) : JVal :=
  match findA (dataObj fs) "status" with
  | some v => v
  | none =>
    match findA (dataObj fs) "pay_status" with
    | some v => v
    | none => JVal.num 0

/-- Source `_extract_paid_status`: a deposit-check response is "paid" when the
paid flag `str(pay_status) in {"1","true","paid","success"}` holds together
with a recognized code, or together with a `success`/`ok` status. -/
def extract_paid_status (resp : JVal) : Bool :=
  match resp with
  | .obj fs =>
    let paidFlag := ["1", "true", "paid", "success"].contains (pyToStr (nestedPayStatus fs))
    if okCode fs && paidFlag then true
    else if (statusLower fs = "success" || statusLower fs = "ok") && paidFlag then true
    else false
  | _ => false

/-! ### Persisted store (`users` and `orders` tables) -/

/-- A row of the `users` table (`user_id` is the association key; `points` is
the exact-decimal balance). -/
structure User where
  username : String
  full_name : String
  points : Rat
  created_at : Nat
deriving Repr, DecidableEq

/-- A row of the `orders` table (`unique_id` is the association key;
`status`: 0 = unpaid, 1 = paid; `credited`: 0 = not credited, 1 = credited). -/
structure Order where
  user_id : Int
  amount : Rat
  coin : String
  order_id : String
  pay_url : String
  status : Nat
  credited : Nat
  created_at : Nat
  paid_at : Option Nat
deriving Repr, DecidableEq

/-- The whole datastore. -/
structure DB where
  users : List (Int × User)
  orders : List (String × Order)
deriving Repr, DecidableEq

/-- The empty datastore created by `init_db`. -/
def emptyDB : DB := ⟨[], []⟩

/-- Source `ensure_user`: `INSERT OR IGNORE` a fresh row with points `'0'`,
then unconditionally update `username` and `full_name`. -/
def ensure_user (db : DB) (userId : Int) (username fullName : String) (now : Nat) : DB :=
  let users1 :=
    if (findA db.users userId).isSome then db.users
    else db.users ++ [(userId, ⟨username, fullName, 0, now⟩)]
  ⟨updateA users1 userId (fun u => { u with username := username, full_name := fullName }),
    db.orders⟩

/-- Source `get_points`: the stored balance, or 0 for a missing row. -/
def get_points (db : DB) (userId : Int) : Rat :=
  match findA db.users userId with
  | some u => u.points
  | none => 0

/-- Source `deduct_points_if_enough`: one `BEGIN IMMEDIATE` transaction that
reads the balance (0 if the row is missing), rolls back returning `false` if
it is below `amount`, and otherwise writes `current - amount` and commits
returning `true`. -/
def deduct_points_if_enough (db : DB) (userId : Int) (amount : Rat) : DB × Bool :=
  let current := get_points db userId
  if current < amount then (db, false)
  else
    (⟨updateA db.users userId (fun u => { u with points := current - amount }), db.orders⟩,
      true)

/-- Source `create_order`: insert a fresh `Pending/not-credited` order row.
`none` models the `IntegrityError` raised on a duplicate primary key. -/
def create_order (db : DB) (uniqueId : String) (userId : Int) (amount : Rat)
    (orderId payUrl : String) (now : Nat) : Option DB :=
  if (findA db.orders uniqueId).isSome then none
  else some ⟨db.users, db.orders ++ [(uniqueId, ⟨userId, amount, "USDT", orderId, payUrl, 0, 0, now, none⟩)]⟩

/-- Source `get_order`: first row with the given `unique_id`. -/
def get_order (db : DB) (uniqueId : String) : Option Order :=
  findA db.orders uniqueId

/-- The reply text of `mark_order_paid_and_credit`, abstracted to its three
distinct shapes (the success text carries the credited amount). -/
inductive CreditMsg where
  | orderNotFound : CreditMsg
  | alreadyCredited : CreditMsg
  | creditedSuccess : Rat → CreditMsg
deriving Repr, DecidableEq

/-- Source `mark_order_paid_and_credit`: one `BEGIN IMMEDIATE` transaction
that re-reads the order; rolls back with `(False, 订单不存在)` if missing;
rolls back with `(True, 已入账)` if already credited; otherwise marks the
order `status=1, credited=1, paid_at=now`, reads the owner's balance (0 if
the row is missing), writes `current + amount`, commits and reports success. -/
def mark_order_paid_and_credit (db : DB) (uniqueId : String) (now : Nat) :
    DB × Bool × CreditMsg :=
  match findA db.orders uniqueId with
  | none => (db, false, CreditMsg.orderNotFound)
  | some o =>
    if o.credited = 1 then (db, true, CreditMsg.alreadyCredited)
    else
      let orders1 := updateA db.orders uniqueId
        (fun od => { od with status := 1, credited := 1, paid_at := some now })
      let current := get_points db o.user_id
      let users1 := updateA db.users o.user_id
        (fun u => { u with points := current + o.amount })
      (⟨users1, orders1⟩, true, CreditMsg.creditedSuccess o.amount)

/-! ### Orchestrator handlers (`cz`, `handle_check_payment`) -/

/-- Outcome of the `/cz` handler, one constructor per reply path. -/
inductive CzOutcome where
  | tooLow : CzOutcome
  | tooHigh : CzOutcome
  | createFailedNet : CzOutcome
  | createFailedResp : JVal → CzOutcome
  | dbError : CzOutcome
  | created : String → String → String → Rat → CzOutcome

/-- Source `cz` (order creation), after argument parsing: ensure the user row,
validate `3 ≤ amount ≤ 10000` (rejecting before the gateway is consulted),
call `pay_link` (the oracle `gw`: `none` is a raised exception), normalize the
response, and persist the order only on a normalized success.  The generated
`unique_id` and the clock are parameters. -/
def cz (db : DB) (userId : Int) (username fullName : String) (amount : Rat)
    (uniqueId : String) (gw : Option JVal) (now : Nat) : DB × CzOutcome :=
  let db1 := ensure_user db userId username fullName now
  if amount < 3 then (db1, CzOutcome.tooLow)
  else if 10000 < amount then (db1, CzOutcome.tooHigh)
  else
    match gw with
    | none => (db1, CzOutcome.createFailedNet)
    | some resp =>
      let r := extract_pay_result resp
      if r.1 then
        match create_order db1 uniqueId userId amount
            (if r.2.1 = "" then "" else r.2.1) r.2.2 now with
        | some db2 => (db2, CzOutcome.created uniqueId r.2.1 r.2.2 amount)
        | none => (db1, CzOutcome.dbError)
      else (db1, CzOutcome.createFailedResp resp)

/-- Outcome of `handle_check_payment`, one constructor per reply path. -/
inductive CheckOutcome where
  | orderMissing : CheckOutcome
  | notYours : CheckOutcome
  | alreadyCredited : CheckOutcome
  | queryFailed : CheckOutcome
  | notPaidYet : CheckOutcome
  | creditResult : Bool → CreditMsg → CheckOutcome
deriving Repr, DecidableEq

/-- Source `handle_check_payment`: look up the order; reject a missing order,
a requester other than the owner, and an already-credited order (each with no
state change and without consulting the gateway); otherwise call
`check_deposit` (the oracle `gw`), and on a "paid" normalization run the
atomic credit transition. -/
def handle_check_payment (db : DB) (fromUserId : Int) (uniqueId : String)
    (gw : Option JVal) (now : Nat) : DB × CheckOutcome :=
  match get_order db uniqueId with
  | none => (db, CheckOutcome.orderMissing)
  | some o =>
    if fromUserId ≠ o.user_id then (db, CheckOutcome.notYours)
    else if o.credited = 1 then (db, CheckOutcome.alreadyCredited)
    else
      match gw with
      | none => (db, CheckOutcome.queryFailed)
      | some resp =>
        if extract_paid_status resp then
          let r := mark_order_paid_and_credit db uniqueId now
          (r.1, CheckOutcome.creditResult r.2.1 r.2.2)
        else (db, CheckOutcome.notPaidYet)

/-! ### Reachable datastore states and invariants -/

/-- Datastore states reachable from the empty store through the store's
operations (each one atomic under `BEGIN IMMEDIATE`; concurrent executions
are arbitrary sequential interleavings of these constructors). -/
inductive Reachable : DB → Prop where
  | init : Reachable emptyDB
  | ensure {db : DB} (userId : Int) (username fullName : String) (now : Nat)
      (h : Reachable db) : Reachable (ensure_user db userId username fullName now)
  | deduct {db : DB} (userId : Int) (amount : Rat) (h : Reachable db) :
      Reachable (deduct_points_if_enough db userId amount).1
  | create {db db' : DB} (uniqueId : String) (userId : Int) (amount : Rat)
      (orderId payUrl : String) (now : Nat) (h : Reachable db)
      (hc : create_order db uniqueId userId amount orderId payUrl now = some db') :
      Reachable db'
  | credit {db : DB} (uniqueId : String) (now : Nat) (h : Reachable db) :
      Reachable (mark_order_paid_and_credit db uniqueId now).1
  | check {db : DB} (fromUserId : Int) (uniqueId : String) (gw : Option JVal)
      (now : Nat) (h : Reachable db) :
      Reachable (handle_check_payment db fromUserId uniqueId gw now).1

/-- Invariant I1: every credited order is paid. -/
def CreditedImpliesPaid (db : DB) : Prop :=
  ∀ p ∈ db.orders, p.2.credited = 1 → p.2.status = 1

/-- All stored balances are nonnegative. -/
def AllNonneg (db : DB) : Prop :=
  ∀ p ∈ db.users, 0 ≤ p.2.points

/-! ### Claim-side definitions

These follow the wording of the specification rather than the source, and are
compared with the source-side definitions in the theorems below. -/

/-- Claim wording (C5): a value is "absent". -/
def isAbsent : JVal → Bool
  | .null => true
  | _ => false

/-- Claim wording (C5): a value is the empty string. -/
def isEmptyString : JVal → Bool
  | .str s => s = ""
  | _ => false

/-- Claim wording (C5): a value is the literal string `"0"`. -/
def isZeroString : JVal → Bool
  | .str s => s = "0"
  | _ => false

/-- Claim wording (C5): a value is numeric zero (in the source language a
Boolean `False` is a numeric zero: `bool` is a subtype of `int`). -/
def isNumericZero (v : JVal) : Bool := pyEqNum v 0

/-- Claim wording (C5): a value is an empty collection. -/
def isEmptyCollection : JVal → Bool
  | .obj fs => fs.isEmpty
  | .arr xs => xs.isEmpty
  | _ => false

/-- Claim wording (C5), `keepZero = false`: drop absent values, empty strings,
the literal string `"0"`, numeric zero, and empty collections. -/
def specDropFalsy (v : JVal) : Bool :=
  isAbsent v || isEmptyString v || isZeroString v || isNumericZero v || isEmptyCollection v

/-- Claim wording (C5), `keepZero = true`: drop only absent and empty-string
values. -/
def specKeepZeroDrop (v : JVal) : Bool := isAbsent v || isEmptyString v

/-- Claim wording (C5): the whole signing procedure — inject the merchant id,
filter per the strategy, sort lexicographically by key, URL-encode, decode per
the plusAsSpace convention, append `&token=<token>`, and take the MD5 digest
rendered as an uppercase hex string. -/
def spec_sign (merchantId token : String) (data : List (String × JVal))
    (keepZero plusAsSpace : Bool) : String :=
  let payload := setKey data "id" (JVal.str merchantId)
  let filtered := payload.filter
    (fun kv => !(if keepZero then specKeepZeroDrop kv.2 else specDropFalsy kv.2))
  let sortedPairs := filtered.mergeSort (fun a b => a.1 ≤ b.1)
  let encoded := urlencodeDoseq sortedPairs
  let decoded := if plusAsSpace then pyUnquotePlus encoded else pyUnquote encoded
  upperStr (md5HexLower (utf8Encode (decoded ++ "&token=" ++ token)))

/-- Claim wording (C4): "paid" iff a recognized success code or a recognized
success status drawn from the same fixed sets accepted for creation results
(codes 10000/0/200, statuses success/ok/1/true), AND the nested payment-status
field equals — case-insensitively, as a string — one of 1/true/paid/success. -/
def spec_paid_claim : JVal → Bool
  | .obj fs =>
    let okStatusCreation := statusLower fs = "success" || statusLower fs = "ok" ||
      statusLower fs = "1" || statusLower fs = "true"
    let paidCI := ["1", "true", "paid", "success"].contains
      (lowerStr (pyToStr (nestedPayStatus fs)))
    (okCode fs || okStatusCreation) && paidCI
  | _ => false

/-- Amended claim for C4: "paid" iff a recognized success code from the same
fixed code set, or a success status in the smaller set success/ok, AND the
nested payment-status field — compared case-sensitively via `str()` — is one
of 1/true/paid/success. -/
def spec_paid_amended : JVal → Bool
  | .obj fs =>
    let okStatusCheck := statusLower fs = "success" || statusLower fs = "ok"
    let paidCS := ["1", "true", "paid", "success"].contains (pyToStr (nestedPayStatus fs))
    (okCode fs || okStatusCheck) && paidCS
  | _ => false

/-! ### Concrete fixtures used in instantiated theorems -/

/-- Fold an optional last response into the result of `_post` after
exhaustion: return it if present, else raise. -/
def respOrFail : Option JVal → PostResult
  | some r => PostResult.resp r
  | none => PostResult.fail

/-- A user row holding 1 point. -/
def wUser : User := ⟨"u", "f", 1, 0⟩

/-- A pending, not-yet-credited order of 5 USDT owned by user 7. -/
def wOrder : Order := ⟨7, 5, "USDT", "g1", "http://x", 0, 0, 1, none⟩

/-- A store with user 7 and their pending order `o1`. -/
def wDB : DB := ⟨[(7, wUser)], [("o1", wOrder)]⟩

/-- A store with the pending order `o1` but no row for its owner. -/
def wDBNoUser : DB := ⟨[], [("o1", wOrder)]⟩

/-- A store with a single user holding 5 points. -/
def wDBDeduct : DB := ⟨[(1, ⟨"a", "b", 5, 0⟩)], []⟩

/-- An authentication-failure response (status `error`, message containing
`认证`). -/
def authRespW : JVal := JVal.obj [("status", JVal.str "error"), ("msg", JVal.str "认证失败")]

/-- A gateway oracle whose first strategy yields the auth-failure response and
whose remaining strategies raise transport errors. -/
def fW : Bool × Bool → Option JVal :=
  fun st => if st = (false, true) then some authRespW else none

/-- A normalized-success creation response. -/
def okCreateResp : JVal :=
  JVal.obj [("code", JVal.num 10000), ("pay_url", JVal.str "http://x"),
    ("order_id", JVal.str "gid")]

/-- A response that is an authentication failure by `_is_auth_failed` and yet
normalizes as a creation success (success code and non-empty pay URL). -/
def authSuccessResp : JVal :=
  JVal.obj [("status", JVal.str "error"), ("msg", JVal.str "身份认证失败"),
    ("code", JVal.num 10000), ("pay_url", JVal.str "http://x"),
    ("order_id", JVal.str "gid")]

/-- A deposit-check response reporting "paid". -/
def paidRespW : JVal :=
  JVal.obj [("status", JVal.str "ok"), ("data", JVal.obj [("status", JVal.num 1)])]

/-- Deposit-check response with top-level status `"1"` (recognized for
creation results) and nested status `paid`. -/
def paidClaimResp1 : JVal :=
  JVal.obj [("status", JVal.str "1"), ("data", JVal.obj [("status", JVal.str "paid")])]

/-- Deposit-check response with a success code and nested status `"Paid"`
(mixed case). -/
def paidClaimResp2 : JVal :=
  JVal.obj [("code", JVal.num 10000), ("data", JVal.obj [("status", JVal.str "Paid")])]

/-! ### Helper lemmas -/

theorem findA_updateA_self {α β : Type} [DecidableEq α] (l : List (α × β)) (k : α)
    (f : β → β) : findA (updateA l k f) k = (findA l k).map f := by
  induction l with
  | nil => rfl
  | cons p rest ih =>
    simp only [updateA, List.map_cons] at *
    by_cases hp : p.1 = k
    · simp [findA, hp]
    · simp [findA, hp, ih]

theorem findA_updateA_ne {α β : Type} [DecidableEq α] (l : List (α × β)) (k k' : α)
    (f : β → β) (h : k' ≠ k) : findA (updateA l k f) k' = findA l k' := by
  induction l with
  | nil => rfl
  | cons p rest ih =>
    simp only [updateA, List.map_cons] at *
    by_cases hp : p.1 = k
    · have hp' : ¬p.1 = k' := by rw [hp]; exact Ne.symm h
      simp [findA, hp, hp', ih, Ne.symm h]
    · by_cases hp' : p.1 = k' <;> simp [findA, hp, hp', ih, h, Ne.symm h]

theorem updateA_of_findA_none {α β : Type} [DecidableEq α] (l : List (α × β)) (k : α)
    (f : β → β) (h : findA l k = none) : updateA l k f = l := by
  induction l with
  | nil => rfl
  | cons p rest ih =>
    by_cases hp : p.1 = k
    · simp [findA, hp] at h
    · simp only [findA, hp, if_neg hp] at h
      have := ih h
      simp only [updateA, List.map_cons, if_neg hp] at *
      rw [this]

theorem findA_append {α β : Type} [DecidableEq α] (l1 l2 : List (α × β)) (k : α) :
    findA (l1 ++ l2) k =
      match findA l1 k with
      | some v => some v
      | none => findA l2 k := by
  induction l1 with
  | nil => rfl
  | cons p rest ih =>
    by_cases hp : p.1 = k <;> simp [findA, hp, ih]

theorem php_truthy_eq_not_specDropFalsy (v : JVal) :
    php_truthy v = !specDropFalsy v := by
  cases v with
  | null => rfl
  | bool b => cases b <;> rfl
  | num n =>
    by_cases h : n = 0 <;>
      simp [php_truthy, specDropFalsy, isAbsent, isEmptyString, isZeroString,
        isNumericZero, isEmptyCollection, pyEqNum, h]
  | str s =>
    by_cases h0 : s = "" <;> by_cases h1 : s = "0" <;>
      simp [php_truthy, specDropFalsy, isAbsent, isEmptyString, isZeroString,
        isNumericZero, isEmptyCollection, pyEqNum, h0, h1]
  | obj fs =>
    cases fs <;>
      simp [php_truthy, specDropFalsy, isAbsent, isEmptyString, isZeroString,
        isNumericZero, isEmptyCollection, pyEqNum]
  | arr xs =>
    cases xs <;>
      simp [php_truthy, specDropFalsy, isAbsent, isEmptyString, isZeroString,
        isNumericZero, isEmptyCollection, pyEqNum]

theorem keep_zero_keep_eq_not_specKeepZeroDrop (v : JVal) :
    keep_zero_keep v = !specKeepZeroDrop v := by
  cases v with
  | str s =>
    by_cases h : s = "" <;>
      simp [keep_zero_keep, specKeepZeroDrop, isAbsent, isEmptyString, h]
  | _ => rfl

theorem if_chain_eq_or_and (a b p : Bool) :
    (if a && p then true else if b && p then true else false) = ((a || b) && p) := by
  cases a <;> cases b <;> cases p <;> rfl

theorem post_loop_all_auth (f : Bool × Bool → Option JVal) :
    ∀ (l : List (Bool × Bool)) (acc : Option JVal),
      (∀ st ∈ l, ∀ r, f st = some r → is_auth_failed r = true) →
      post_loop f l acc = respOrFail ((acc.toList ++ l.filterMap f).getLast?) := by
  intro l
  induction l with
  | nil => intro acc h; cases acc <;> rfl
  | cons st rest ih =>
    intro acc h
    have hrest : ∀ s ∈ rest, ∀ r, f s = some r → is_auth_failed r = true :=
      fun s hs r hr => h s (List.mem_cons_of_mem _ hs) r hr
    cases hf : f st with
    | none =>
      simp only [post_loop, hf]
      rw [List.filterMap_cons_none hf]
      exact ih acc hrest
    | some r =>
      have hauth : is_auth_failed r = true := h st (List.mem_cons_self st rest) r hf
      simp only [post_loop, hf, hauth, if_true]
      rw [ih (some r) hrest, List.filterMap_cons_some hf]
      congr 1
      rw [show (some r).toList ++ List.filterMap f rest = r :: List.filterMap f rest from rfl,
        List.getLast?_append_cons]

/-! ### Claim theorems -/

/-- C5: for every payload and strategy, `_sign_data` produces its signature by
exactly the claimed procedure: inject the merchant id, filter (keepZero=false
dropping absent values, empty strings, the literal string "0", numeric zero,
and empty collections; keepZero=true dropping only absent and empty-string
values), sort lexicographically by key, URL-encode, decode per the plusAsSpace
convention, append `&token=<token>`, and take the MD5 digest rendered as an
uppercase hex string. -/
theorem sign_data_matches_spec (merchantId token : String) (data : List (String × JVal))
    (keepZero plusAsSpace : Bool) :
    sign_data_sign merchantId token data keepZero plusAsSpace
      = spec_sign merchantId token data keepZero plusAsSpace := by
  have hfilter : (setKey data "id" (JVal.str merchantId)).filter
        (fun kv => if keepZero then keep_zero_keep kv.2 else php_truthy kv.2)
      = (setKey data "id" (JVal.str merchantId)).filter
        (fun kv => !(if keepZero then specKeepZeroDrop kv.2 else specDropFalsy kv.2)) := by
    refine List.filter_congr ?_
    intro kv _
    cases keepZero
    · simp [php_truthy_eq_not_specDropFalsy]
    · simp [keep_zero_keep_eq_not_specKeepZeroDrop]
  simp only [sign_data_sign, sign_filtered, spec_sign]
  rw [hfilter]

/-- C4 counterexample: the claim's "paid" normalization differs from the code
at two concrete responses.  With top-level status `"1"` (recognized for
creation results) and nested status `paid` the claim says paid but the code
says not paid (the deposit-check status set is only `success`/`ok`); with a
success code and nested status `"Paid"` the claim (case-insensitive) says paid
but the code (case-sensitive comparison) says not paid. -/
theorem extract_paid_status_claim_counterexample :
    (spec_paid_claim paidClaimResp1 = true ∧ extract_paid_status paidClaimResp1 = false) ∧
    (spec_paid_claim paidClaimResp2 = true ∧ extract_paid_status paidClaimResp2 = false) := by
  refine ⟨⟨?_, ?_⟩, ⟨?_, ?_⟩⟩ <;> decide

/-- C4 amended: a deposit-check response is normalized to "paid" iff it
carries a recognized success code (10000/0/200, shared with creation results)
or a success status in the smaller set `success`/`ok`, AND the nested
payment-status field (tried under the alternate spellings `status` then
`pay_status`, defaulting to 0) rendered with `str()` equals — case-sensitively
— one of `1`, `true`, `paid`, `success`. -/
theorem extract_paid_status_amended (resp : JVal) :
    extract_paid_status resp = spec_paid_amended resp := by
  cases resp with
  | obj fs =>
    simp only [extract_paid_status, spec_paid_amended]
    exact if_chain_eq_or_and _ _ _
  | null => rfl
  | bool b => rfl
  | num n => rfl
  | str s => rfl
  | arr xs => rfl

/-- C6: `_post` tries the fixed ordered list of exactly 4 signing strategies;
when every strategy's outcome is an exception or an auth-failure response, it
returns the last received non-exception response if at least one strategy
yielded a response (even an auth failure), and reports total failure exactly
when no strategy produced any response at all. -/
theorem post_strategy_exhaustion (f : Bool × Bool → Option JVal)
    (h : ∀ st ∈ strategies, ∀ r, f st = some r → is_auth_failed r = true) :
    strategies.length = 4 ∧
    (post f = PostResult.fail ↔ ∀ st ∈ strategies, f st = none) ∧
    (∀ r, (strategies.filterMap f).getLast? = some r → post f = PostResult.resp r) := by
  have hm := post_loop_all_auth f strategies none h
  refine ⟨rfl, ?_, ?_⟩
  · rw [post, hm]
    show respOrFail ((strategies.filterMap f).getLast?) = PostResult.fail ↔ _
    constructor
    · intro hfail
      cases hg : (strategies.filterMap f).getLast? with
      | some r => rw [hg] at hfail; exact absurd hfail (by simp [respOrFail])
      | none =>
        have hnil : strategies.filterMap f = [] := List.getLast?_eq_none_iff.mp hg
        exact List.filterMap_eq_nil_iff.mp hnil
    · intro hnone
      have hnil : strategies.filterMap f = [] := List.filterMap_eq_nil_iff.mpr hnone
      rw [hnil]; rfl
  · intro r hr
    rw [post, hm]
    show respOrFail ((strategies.filterMap f).getLast?) = _
    rw [hr]; rfl

/-- Witness for C6: a concrete oracle whose first strategy yields an
auth-failure response and whose other strategies raise; `_post` returns that
response. -/
theorem post_strategy_exhaustion_witness : post fW = PostResult.resp authRespW := by
  have h : ∀ st ∈ strategies, ∀ r, fW st = some r → is_auth_failed r = true := by
    intro st hst r hr
    by_cases hs : st = (false, true)
    · rw [hs] at hr
      simp [fW] at hr
      rw [← hr]
      decide
    · simp [fW, hs] at hr
  exact (post_strategy_exhaustion fW h).2.2 authRespW rfl

/-- C2: `deduct_points_if_enough` runs as one atomic unit, returns `false`
with no write when the current balance (0 for a missing row) is strictly below
the requested amount, and otherwise commits `current - amount` and returns
`true`, leaving other users and the orders table untouched; consequently no
stored balance ever goes negative, and under the serialized transactions this
holds for every interleaving of concurrent debit attempts. -/
theorem deduct_points_if_enough_spec (db : DB) (userId : Int) (amount : Rat)
    (hamt : 0 ≤ amount) :
    (get_points db userId < amount →
      deduct_points_if_enough db userId amount = (db, false)) ∧
    (amount ≤ get_points db userId →
      (deduct_points_if_enough db userId amount).2 = true ∧
      get_points (deduct_points_if_enough db userId amount).1 userId
        = get_points db userId - amount ∧
      (∀ v : Int, v ≠ userId →
        get_points (deduct_points_if_enough db userId amount).1 v = get_points db v) ∧
      (deduct_points_if_enough db userId amount).1.orders = db.orders) ∧
    (AllNonneg db → AllNonneg (deduct_points_if_enough db userId amount).1) := by
  refine ⟨?_, ?_, ?_⟩
  · intro hlt
    simp [deduct_points_if_enough, hlt]
  · intro hge
    have hlt : ¬get_points db userId < amount := not_lt.mpr hge
    have hd : deduct_points_if_enough db userId amount =
        (⟨updateA db.users userId
            (fun u => { u with points := get_points db userId - amount }), db.orders⟩, true) := by
      simp [deduct_points_if_enough, hlt]
    refine ⟨by rw [hd], ?_, ?_, by rw [hd]⟩
    · rw [hd]
      simp only [get_points]
      rw [findA_updateA_self]
      cases hf : findA db.users userId with
      | some u => simp
      | none =>
        have h0 : amount = 0 := by
          have hle : amount ≤ 0 := by simpa [get_points, hf] using hge
          exact le_antisymm hle hamt
        simp [h0]
    · intro v hv
      rw [hd]
      simp only [get_points]
      rw [findA_updateA_ne _ _ _ _ hv]
  · intro hnn
    by_cases hlt : get_points db userId < amount
    · simpa [deduct_points_if_enough, hlt] using hnn
    · intro p hp
      simp only [deduct_points_if_enough, if_neg hlt, updateA] at hp
      obtain ⟨q, hq, hpq⟩ := List.mem_map.mp hp
      by_cases hqk : q.1 = userId
      · rw [← hpq]
        simp only [hqk, if_pos rfl]
        exact sub_nonneg.mpr (not_lt.mp hlt)
      · rw [← hpq]
        simp only [if_neg hqk]
        exact hnn q hq

/-- Witness for C2: with a stored balance of 5, deducting 2 succeeds and
leaves balance 3. -/
theorem deduct_points_if_enough_spec_witness :
    (deduct_points_if_enough wDBDeduct 1 2).2 = true ∧
    get_points (deduct_points_if_enough wDBDeduct 1 2).1 1 = 3 := by
  have h := (deduct_points_if_enough_spec wDBDeduct 1 2 (by norm_num)).2.1
    (by norm_num [get_points, wDBDeduct, findA])
  refine ⟨h.1, ?_⟩
  rw [h.2.1]
  norm_num [get_points, wDBDeduct, findA]

/-- C1: running the credit transition twice on the same not-yet-credited order
whose owner has a user row increases the owner's balance by the order's amount
exactly once: the first call reports success and adds the amount, the second
re-reads the `credited` flag inside the atomic unit, aborts with no writes
(the state is returned unchanged), and reports the idempotent already-credited
outcome — with both calls returning `True`.  The transactions are serialized
by `BEGIN IMMEDIATE`, so this covers the concurrent double-check as well. -/
theorem mark_order_credit_idempotent (db : DB) (uniqueId : String) (o : Order) (u : User)
    (now1 now2 : Nat) (ho : findA db.orders uniqueId = some o) (hc : o.credited ≠ 1)
    (hu : findA db.users o.user_id = some u) :
    (mark_order_paid_and_credit db uniqueId now1).2.1 = true ∧
    (mark_order_paid_and_credit db uniqueId now1).2.2 = CreditMsg.creditedSuccess o.amount ∧
    get_points (mark_order_paid_and_credit db uniqueId now1).1 o.user_id
      = get_points db o.user_id + o.amount ∧
    mark_order_paid_and_credit (mark_order_paid_and_credit db uniqueId now1).1 uniqueId now2
      = ((mark_order_paid_and_credit db uniqueId now1).1, true, CreditMsg.alreadyCredited) := by
  have hm : mark_order_paid_and_credit db uniqueId now1 =
      (⟨updateA db.users o.user_id
          (fun w => { w with points := get_points db o.user_id + o.amount }),
        updateA db.orders uniqueId
          (fun od => { od with status := 1, credited := 1, paid_at := some now1 })⟩,
        true, CreditMsg.creditedSuccess o.amount) := by
    simp [mark_order_paid_and_credit, ho, hc]
  refine ⟨by rw [hm], by rw [hm], ?_, ?_⟩
  · rw [hm]
    simp only [get_points]
    rw [findA_updateA_self, hu]
    simp [get_points, hu]
  · rw [hm]
    simp only [mark_order_paid_and_credit]
    rw [findA_updateA_self, ho]
    simp

/-- Witness for C1: user 7 holds 1 point and owns the pending 5-USDT order
`o1`; the first credit succeeds leaving 6 points and the second call leaves
the state unchanged with the idempotent outcome. -/
theorem mark_order_credit_idempotent_witness :
    (mark_order_paid_and_credit wDB "o1" 2).2.1 = true ∧
    get_points (mark_order_paid_and_credit wDB "o1" 2).1 7 = 6 ∧
    mark_order_paid_and_credit (mark_order_paid_and_credit wDB "o1" 2).1 "o1" 3
      = ((mark_order_paid_and_credit wDB "o1" 2).1, true, CreditMsg.alreadyCredited) := by
  have h := mark_order_credit_idempotent wDB "o1" wOrder wUser 2 3 rfl (by decide) rfl
  refine ⟨h.1, ?_, h.2.2.2⟩
  have h2 : get_points (mark_order_paid_and_credit wDB "o1" 2).1 7
      = get_points wDB 7 + wOrder.amount := h.2.2.1
  rw [h2]
  norm_num [get_points, wDB, wUser, wOrder, findA]

/-- C10: when the credit transition runs for an order whose owner has no row
in the users table, it still marks the order paid and credited, commits, and
reports success, while the balance `UPDATE` matches no row: the users table is
unchanged, every read balance is unchanged, and no error is reported. -/
theorem mark_order_credit_missing_user (db : DB) (uniqueId : String) (o : Order) (now : Nat)
    (ho : findA db.orders uniqueId = some o) (hc : o.credited ≠ 1)
    (hu : findA db.users o.user_id = none) :
    (mark_order_paid_and_credit db uniqueId now).2.1 = true ∧
    (mark_order_paid_and_credit db uniqueId now).2.2 = CreditMsg.creditedSuccess o.amount ∧
    (mark_order_paid_and_credit db uniqueId now).1.users = db.users ∧
    get_order (mark_order_paid_and_credit db uniqueId now).1 uniqueId
      = some { o with status := 1, credited := 1, paid_at := some now } ∧
    (∀ v : Int, get_points (mark_order_paid_and_credit db uniqueId now).1 v
      = get_points db v) := by
  have hm : mark_order_paid_and_credit db uniqueId now =
      (⟨updateA db.users o.user_id
          (fun w => { w with points := get_points db o.user_id + o.amount }),
        updateA db.orders uniqueId
          (fun od => { od with status := 1, credited := 1, paid_at := some now })⟩,
        true, CreditMsg.creditedSuccess o.amount) := by
    simp [mark_order_paid_and_credit, ho, hc]
  refine ⟨by rw [hm], by rw [hm], ?_, ?_, ?_⟩
  · rw [hm]
    show updateA db.users o.user_id
        (fun w => { w with points := get_points db o.user_id + o.amount }) = db.users
    exact updateA_of_findA_none _ _ _ hu
  · rw [hm]
    simp only [get_order]
    rw [findA_updateA_self, ho]
    rfl
  · intro v
    rw [hm]
    simp only [get_points]
    rw [updateA_of_findA_none db.users o.user_id _ hu]

/-- Witness for C10: crediting order `o1` whose owner 7 has no user row
succeeds, leaves the users table empty, and leaves the read balance at 0. -/
theorem mark_order_credit_missing_user_witness :
    (mark_order_paid_and_credit wDBNoUser "o1" 2).2.1 = true ∧
    (mark_order_paid_and_credit wDBNoUser "o1" 2).1.users = wDBNoUser.users ∧
    get_points (mark_order_paid_and_credit wDBNoUser "o1" 2).1 7 = 0 := by
  have h := mark_order_credit_missing_user wDBNoUser "o1" wOrder 2 rfl (by decide) rfl
  exact ⟨h.1, h.2.2.1, by rw [h.2.2.2.2 7]; rfl⟩

/-- C8: `handle_check_payment` called by a user other than the order's owner
returns the ownership-mismatch outcome and mutates nothing: the state is
returned unchanged and the result does not depend on the gateway oracle (no
gateway call is observable). -/
theorem check_payment_ownership_mismatch (db : DB) (fromUserId : Int) (uniqueId : String)
    (o : Order) (gw : Option JVal) (now : Nat) (ho : get_order db uniqueId = some o)
    (hne : fromUserId ≠ o.user_id) :
    handle_check_payment db fromUserId uniqueId gw now = (db, CheckOutcome.notYours) := by
  simp [handle_check_payment, ho, hne]

/-- Witness for C8: user 9 checking user 7's order `o1` gets the mismatch
outcome with the store unchanged, even though the gateway oracle reports
paid. -/
theorem check_payment_ownership_mismatch_witness :
    handle_check_payment wDB 9 "o1" (some paidRespW) 5 = (wDB, CheckOutcome.notYours) :=
  check_payment_ownership_mismatch wDB 9 "o1" wOrder (some paidRespW) 5 rfl (by decide)

/-- C3 counterexample: a response flagged by the code's own
authentication-failure test (`_is_auth_failed`) that nonetheless carries a
success code and a non-empty pay URL makes `cz` persist an order and report
success — contradicting the claim that a "reached gateway but unauthenticated"
response always yields an error with nothing persisted. -/
theorem cz_persists_on_unauthenticated_response :
    is_auth_failed authSuccessResp = true ∧
    (cz emptyDB 7 "u" "f" 5 "o9" (some authSuccessResp) 0).2
      = CzOutcome.created "o9" "gid" "http://x" 5 ∧
    (get_order (cz emptyDB 7 "u" "f" 5 "o9" (some authSuccessResp) 0).1 "o9").isSome = true := by
  refine ⟨by decide, rfl, by decide⟩

/-- C3 amended: when the gateway call raises (total network failure) or the
normalized creation result is unsuccessful — which covers every
authentication-failure response that does not itself normalize as a success —
`cz` returns an error reply and persists no order row; an auth-failure
response that normalizes as a success is persisted like any success. -/
theorem cz_no_partial_order (db : DB) (userId : Int) (un fn : String) (amount : Rat)
    (uniqueId : String) (gw : Option JVal) (now : Nat)
    (hlo : 3 ≤ amount) (hhi : amount ≤ 10000)
    (hfail : gw = none ∨ ∃ r, gw = some r ∧ (extract_pay_result r).1 = false) :
    (cz db userId un fn amount uniqueId gw now).1.orders = db.orders ∧
    ((cz db userId un fn amount uniqueId gw now).2 = CzOutcome.createFailedNet ∨
      ∃ r, (cz db userId un fn amount uniqueId gw now).2 = CzOutcome.createFailedResp r) := by
  have h3 : ¬amount < 3 := not_lt.mpr hlo
  have h4 : ¬10000 < amount := not_lt.mpr hhi
  rcases hfail with hgw | ⟨r, hgw, hr⟩
  · subst hgw
    exact ⟨by simp [cz, h3, h4, ensure_user], Or.inl (by simp [cz, h3, h4])⟩
  · subst hgw
    exact ⟨by simp [cz, h3, h4, hr, ensure_user], Or.inr ⟨r, by simp [cz, h3, h4, hr]⟩⟩

/-- Witness for C3 (amended): a total network failure on a valid amount leaves
the orders table unchanged and reports the network-failure reply. -/
theorem cz_no_partial_order_witness :
    (cz emptyDB 7 "u" "f" 5 "o1" none 0).1.orders = emptyDB.orders ∧
    ((cz emptyDB 7 "u" "f" 5 "o1" none 0).2 = CzOutcome.createFailedNet ∨
      ∃ r, (cz emptyDB 7 "u" "f" 5 "o1" none 0).2 = CzOutcome.createFailedResp r) :=
  cz_no_partial_order emptyDB 7 "u" "f" 5 "o1" none 0 (by norm_num) (by norm_num) (Or.inl rfl)

/-- C7: `cz` accepts exactly the amounts in `[3, 10000]`: below 3 it replies
"too low" and above 10000 "too high", in both cases independently of the
gateway oracle (no network call) and with no order persisted; within the
bounds, with a normalized-success gateway response and a fresh unique id, the
order is created and persisted as `Pending/not-credited`. -/
theorem cz_amount_bounds (db : DB) (userId : Int) (un fn : String) (amount : Rat)
    (uniqueId : String) (gw : Option JVal) (now : Nat) :
    (amount < 3 → cz db userId un fn amount uniqueId gw now
      = (ensure_user db userId un fn now, CzOutcome.tooLow)) ∧
    (10000 < amount → cz db userId un fn amount uniqueId gw now
      = (ensure_user db userId un fn now, CzOutcome.tooHigh)) ∧
    (3 ≤ amount → amount ≤ 10000 →
      ∀ r, gw = some r → (extract_pay_result r).1 = true →
        findA db.orders uniqueId = none →
        (cz db userId un fn amount uniqueId gw now).2
          = CzOutcome.created uniqueId (extract_pay_result r).2.1
              (extract_pay_result r).2.2 amount ∧
        get_order (cz db userId un fn amount uniqueId gw now).1 uniqueId
          = some ⟨userId, amount, "USDT",
              (if (extract_pay_result r).2.1 = "" then "" else (extract_pay_result r).2.1),
              (extract_pay_result r).2.2, 0, 0, now, none⟩) := by
  refine ⟨?_, ?_, ?_⟩
  · intro hlt
    simp [cz, hlt]
  · intro hgt
    have h3 : ¬amount < 3 := not_lt.mpr (le_trans (by norm_num) (le_of_lt hgt))
    simp [cz, h3, hgt]
  · intro hlo hhi r hgw hr hfresh
    subst hgw
    have h3 : ¬amount < 3 := not_lt.mpr hlo
    have h4 : ¬10000 < amount := not_lt.mpr hhi
    have hfresh1 : findA (ensure_user db userId un fn now).orders uniqueId = none := hfresh
    have hcz : cz db userId un fn amount uniqueId (some r) now
        = (⟨(ensure_user db userId un fn now).users,
            (ensure_user db userId un fn now).orders ++
              [(uniqueId, ⟨userId, amount, "USDT",
                (if (extract_pay_result r).2.1 = "" then "" else (extract_pay_result r).2.1),
                (extract_pay_result r).2.2, 0, 0, now, none⟩)]⟩,
          CzOutcome.created uniqueId (extract_pay_result r).2.1
            (extract_pay_result r).2.2 amount) := by
      simp [cz, h3, h4, hr, create_order, hfresh1]
    refine ⟨by rw [hcz], ?_⟩
    rw [hcz]
    simp only [get_order]
    rw [findA_append]
    rw [show (ensure_user db userId un fn now).orders = db.orders from rfl, hfresh]
    simp [findA]

/-- Witness for C7: amount 2.99 is rejected as too low and 10000.01 as too
high (both without consulting the gateway), while amount 3 with a
normalized-success response creates the order. -/
theorem cz_amount_bounds_witness :
    cz emptyDB 7 "u" "f" (299 / 100) "o1" (some okCreateResp) 0
      = (ensure_user emptyDB 7 "u" "f" 0, CzOutcome.tooLow) ∧
    cz emptyDB 7 "u" "f" (1000001 / 100) "o1" (some okCreateResp) 0
      = (ensure_user emptyDB 7 "u" "f" 0, CzOutcome.tooHigh) ∧
    (cz emptyDB 7 "u" "f" 3 "o1" (some okCreateResp) 0).2
      = CzOutcome.created "o1" "gid" "http://x" 3 := by
  refine ⟨?_, ?_, ?_⟩
  · exact (cz_amount_bounds emptyDB 7 "u" "f" (299 / 100) "o1" (some okCreateResp) 0).1
      (by norm_num)
  · exact (cz_amount_bounds emptyDB 7 "u" "f" (1000001 / 100) "o1" (some okCreateResp) 0).2.1
      (by norm_num)
  · have h := (cz_amount_bounds emptyDB 7 "u" "f" 3 "o1" (some okCreateResp) 0).2.2
      (by norm_num) (by norm_num) okCreateResp rfl (by decide) rfl
    have he : extract_pay_result okCreateResp = (true, "gid", "http://x") := by decide
    rw [h.1, he]

/-- The orders table is untouched by a debit. -/
theorem deduct_points_orders (db : DB) (userId : Int) (amount : Rat) :
    (deduct_points_if_enough db userId amount).1.orders = db.orders := by
  simp only [deduct_points_if_enough]
  split <;> rfl

theorem creditedImpliesPaid_mark (db : DB) (uniqueId : String) (now : Nat)
    (h : CreditedImpliesPaid db) :
    CreditedImpliesPaid (mark_order_paid_and_credit db uniqueId now).1 := by
  cases ho : findA db.orders uniqueId with
  | none => simpa [mark_order_paid_and_credit, ho] using h
  | some o =>
    by_cases hc : o.credited = 1
    · simpa [mark_order_paid_and_credit, ho, hc] using h
    · have hm : mark_order_paid_and_credit db uniqueId now =
          (⟨updateA db.users o.user_id
              (fun w => { w with points := get_points db o.user_id + o.amount }),
            updateA db.orders uniqueId
              (fun od => { od with status := 1, credited := 1, paid_at := some now })⟩,
            true, CreditMsg.creditedSuccess o.amount) := by
        simp [mark_order_paid_and_credit, ho, hc]
      intro p hp
      rw [hm] at hp
      have hp' : p ∈ updateA db.orders uniqueId
          (fun od => { od with status := 1, credited := 1, paid_at := some now }) := hp
      simp only [updateA] at hp'
      obtain ⟨q, hq, hpq⟩ := List.mem_map.mp hp'
      by_cases hqk : q.1 = uniqueId
      · rw [← hpq]
        simp [hqk]
      · rw [← hpq]
        simp only [if_neg hqk]
        exact h q hq

theorem creditedImpliesPaid_create (db db' : DB) (uniqueId : String) (userId : Int)
    (amount : Rat) (orderId payUrl : String) (now : Nat)
    (hc : create_order db uniqueId userId amount orderId payUrl now = some db')
    (h : CreditedImpliesPaid db) : CreditedImpliesPaid db' := by
  by_cases hdup : (findA db.orders uniqueId).isSome
  · simp [create_order, hdup] at hc
  · simp only [create_order, if_neg hdup, Option.some.injEq] at hc
    intro p hp
    rw [← hc] at hp
    rcases List.mem_append.mp hp with h1 | h2
    · exact h p h1
    · simp only [List.mem_singleton] at h2
      rw [h2]
      simp

theorem creditedImpliesPaid_check (db : DB) (fromUserId : Int) (uniqueId : String)
    (gw : Option JVal) (now : Nat) (h : CreditedImpliesPaid db) :
    CreditedImpliesPaid (handle_check_payment db fromUserId uniqueId gw now).1 := by
  cases ho : get_order db uniqueId with
  | none => simpa [handle_check_payment, ho] using h
  | some o =>
    by_cases hne : fromUserId = o.user_id
    · by_cases hcr : o.credited = 1
      · simpa [handle_check_payment, ho, hne, hcr] using h
      · cases gw with
        | none => simpa [handle_check_payment, ho, hne, hcr] using h
        | some resp =>
          by_cases hp : extract_paid_status resp
          · have hh : (handle_check_payment db fromUserId uniqueId (some resp) now).1
                = (mark_order_paid_and_credit db uniqueId now).1 := by
              simp [handle_check_payment, ho, hne, hcr, hp]
            rw [hh]
            exact creditedImpliesPaid_mark db uniqueId now h
          · simpa [handle_check_payment, ho, hne, hcr, hp] using h
    · simpa [handle_check_payment, ho, hne] using h

/-- C9: every reachable order record satisfies credited → paid.  Orders are
created `Pending/not-credited`, and the only operation that sets `credited`
(the atomic credit transition, also as invoked from the check handler) sets
`status = 1` in the same write, so no operation sequence produces a credited
order that is not paid. -/
theorem reachable_credited_implies_paid (db : DB) (h : Reachable db) :
    CreditedImpliesPaid db := by
  induction h with
  | init => intro p hp; cases hp
  | ensure userId un fn now h ih => exact fun p hp => ih p hp
  | deduct userId amount h ih =>
    intro p hp
    rw [deduct_points_orders] at hp
    exact ih p hp
  | create uniqueId userId amount orderId payUrl now h hc ih =>
    exact creditedImpliesPaid_create _ _ _ _ _ _ _ _ hc ih
  | credit uniqueId now h ih => exact creditedImpliesPaid_mark _ _ _ ih
  | check fromUserId uniqueId gw now h ih => exact creditedImpliesPaid_check _ _ _ _ _ ih

/-- Witness for C9: the reachable state obtained by ensuring user 7, creating
order `o1`, and running the credit transition satisfies the invariant. -/
theorem reachable_credited_implies_paid_witness :
    CreditedImpliesPaid (mark_order_paid_and_credit
      ⟨[(7, ⟨"u", "f", 0, 0⟩)], [("o1", ⟨7, 5, "USDT", "g1", "http://x", 0, 0, 1, none⟩)]⟩
      "o1" 2).1 :=
  reachable_credited_implies_paid _
    (Reachable.credit "o1" 2
      (Reachable.create "o1" 7 5 "g1" "http://x" 1
        (Reachable.ensure 7 "u" "f" 0 Reachable.init) rfl))
